import Mathlib

/-!
Shallow embedding of the SmartShopETL pipeline (src/main.py, src/config.py).

Modelling conventions:
* A pandas DataFrame is a `List` of row structures; column operations become
  row-wise maps (the columns touched by the source are independent per row).
* Prices are `ℚ`; a missing value (NaN) is `Option.none`.
* Raw CSV cells that `pd.to_numeric(errors='coerce')` must handle are a
  `CsvVal` (a numeric cell, a non-numeric string cell, or an empty cell).
* Timestamps are minutes since an epoch (`Nat`); one calendar day is 1440
  minutes and the calendar date of a timestamp `t` is `t / 1440`.  This keeps
  exactly the structure `pd.date_range(freq='D')` and `.dt.date` depend on.
* Python exceptions are an explicit `PyExc`; a Python function that may raise
  returns `Except PyExc α`.  `try/except SomeError` becomes a `match`.
* pandas orderings that no claim depends on (the key-sorted order of an outer
  merge and of `groupby`, quicksort ties in `sort_values`) are replaced by
  deterministic list orders; every property proved here is order-insensitive.
-/

namespace SmartShopETL

/-- A raw CSV cell as seen by `pd.to_numeric(..., errors='coerce')`:
either an (already numeric / numeric-parseable) value, a non-numeric
string, or an empty cell (NaN). -/
inductive CsvVal where
  | num (q : ℚ)
  | str (s : String)
  | na
deriving DecidableEq, Repr

/-- `pd.to_numeric(col, errors='coerce')` on one cell: numeric cells survive,
everything else becomes NaN (`none`). -/
def toNumeric : CsvVal → Option ℚ
  | CsvVal.num q => some q
  | CsvVal.str _ => none
  | CsvVal.na => none

/-- One row of the raw product catalog CSV (`data/product_catalog.csv`). -/
structure RawProduct where
  product_id : String
  product_name : Option String
  category : Option String
  price : CsvVal
deriving DecidableEq, Repr

/-- One row of the cleaned product catalog (`product_catalog_df`), and also
the row type of the product dimension projection in `dim_product_df`. -/
structure Product where
  product_id : String
  product_name : Option String
  category : Option String
  price : Option ℚ
deriving DecidableEq, Repr

/-- One row of the customer transaction source (`customer_transaction_df`),
with the timestamp already parsed (`pd.to_datetime`). -/
structure Transaction where
  transaction_id : String
  customer_id : String
  product_id : String
  timestamp : Nat
  quantity : Int
  price : Option ℚ
deriving DecidableEq, Repr

/-- `df.drop_duplicates(subset=key, keep='first')`, with the set of already
seen key values made explicit for structural recursion. -/
def dropDupByAux {α κ : Type} [DecidableEq κ] (key : α → κ) (seen : List κ) :
    List α → List α
  | [] => []
  | x :: xs =>
    if key x ∈ seen then dropDupByAux key seen xs
    else x :: dropDupByAux key (key x :: seen) xs

/-- `df.drop_duplicates(subset=key, keep='first')`: keep the first row for
each key value, in input order. -/
def dropDupBy {α κ : Type} [DecidableEq κ] (key : α → κ) (l : List α) : List α :=
  dropDupByAux key [] l

/-- `df['price'].apply(lambda x: x if x >= 0 else None)`: NaN compares
False under `>=`, so both NaN and negatives become None. -/
def sanitizePrice : Option ℚ → Option ℚ
  | some x => if 0 ≤ x then some x else none
  | none => none

/-- The per-row effect of the column operations of `product_catalog_df`:
`to_numeric` + negative-price nullification on `price`, and
`fillna('Unknown Product')` on `product_name`. -/
def cleanRow (r : RawProduct) : Product :=
  { product_id := r.product_id
    product_name := some (r.product_name.getD "Unknown Product")
    category := r.category
    price := sanitizePrice (toNumeric r.price) }

/-- `ETLOrchestrator.product_catalog_df` (src/main.py lines 66-88): drop
duplicate `product_id` rows keeping the first, then coerce and nullify
invalid prices, then fill missing product names. -/
def product_catalog_df (raw : List RawProduct) : List Product :=
  (dropDupBy (fun r => r.product_id) raw).map cleanRow

/-- One row of `merged_df` in `transaction_product_joined_df`: the outer
merge of the cleaned catalog (left, columns suffixed `_x`) with the
transactions (right, columns suffixed `_y`), plus the combined `price`
column.  Fields of the unmatched side are NaN (`none`). -/
structure JoinedRow where
  product_id : String
  product_name : Option String
  category : Option String
  price_x : Option ℚ
  transaction_id : Option String
  customer_id : Option String
  timestamp : Option Nat
  quantity : Option Int
  price_y : Option ℚ
  price : Option ℚ
deriving DecidableEq, Repr

/-- A merge row matched on both sides: catalog row `p` with transaction
row `t` sharing `product_id`. -/
def mkBoth (p : Product) (t : Transaction) : JoinedRow :=
  { product_id := p.product_id
    product_name := p.product_name
    category := p.category
    price_x := p.price
    transaction_id := some t.transaction_id
    customer_id := some t.customer_id
    timestamp := some t.timestamp
    quantity := some t.quantity
    price_y := t.price
    price := none }

/-- A merge row for a catalog product with no matching transaction:
transaction-side fields are NaN. -/
def mkLeftOnly (p : Product) : JoinedRow :=
  { product_id := p.product_id
    product_name := p.product_name
    category := p.category
    price_x := p.price
    transaction_id := none
    customer_id := none
    timestamp := none
    quantity := none
    price_y := none
    price := none }

/-- A merge row for a transaction whose product is not in the catalog:
catalog-side fields are NaN. -/
def mkRightOnly (t : Transaction) : JoinedRow :=
  { product_id := t.product_id
    product_name := none
    category := none
    price_x := none
    transaction_id := some t.transaction_id
    customer_id := some t.customer_id
    timestamp := some t.timestamp
    quantity := some t.quantity
    price_y := t.price
    price := none }

/-- `df.merge(transactions, how='outer', on='product_id')`: every
(catalog row, transaction row) pair agreeing on `product_id`, plus
catalog rows with no matching transaction, plus transactions with no
matching catalog row.  (pandas additionally sorts an outer merge by the
key; no property proved here depends on row order.) -/
def mergeOuter (cat : List Product) (txs : List Transaction) : List JoinedRow :=
  (cat.flatMap fun p =>
    if (txs.filter fun t => t.product_id = p.product_id).isEmpty then [mkLeftOnly p]
    else (txs.filter fun t => t.product_id = p.product_id).map (mkBoth p)) ++
  (txs.filter fun t => cat.all fun p => ¬ p.product_id = t.product_id).map mkRightOnly

/-- `series_a.combine_first(series_b)` on one cell: the first series'
value when present, otherwise the second's. -/
def combineFirst (a b : Option ℚ) : Option ℚ :=
  match a with
  | some x => some x
  | none => b

/-- `merged_df['price'] = merged_df['price_x'].combine_first(merged_df['price_y'])`
applied to one row. -/
def withEffectivePrice (r : JoinedRow) : JoinedRow :=
  { r with price := combineFirst r.price_x r.price_y }

/-- The outer merge plus the combined `price` column, for an arbitrary
cleaned catalog (the body of `transaction_product_joined_df` after
`product_catalog_df` has been computed). -/
def mergeJoin (cat : List Product) (txs : List Transaction) : List JoinedRow :=
  (mergeOuter cat txs).map withEffectivePrice

/-- `ETLOrchestrator.transaction_product_joined_df` (src/main.py lines
90-97): outer-join the cleaned catalog with the transactions on
`product_id` and add the combined `price` column. -/
def transaction_product_joined_df (rawCat : List RawProduct)
    (txs : List Transaction) : List JoinedRow :=
  mergeJoin (product_catalog_df rawCat) txs

/-- `ETLOrchestrator.dim_customer_df` (src/main.py lines 99-101):
distinct `customer_id` values, first occurrence kept. -/
def dim_customer_df (txs : List Transaction) : List String :=
  dropDupBy id (txs.map fun t => t.customer_id)

/-- The `[["product_id", "product_name", "category", "price"]]` projection
of a joined row (`price` is the combined effective-price column). -/
def selectProductCols (r : JoinedRow) : Product :=
  { product_id := r.product_id
    product_name := r.product_name
    category := r.category
    price := r.price }

/-- The comparison behind `sort_values(by="price", ascending=False)`:
descending by price with NaN placed last (`na_position='last'`). -/
def priceGe (a b : Product) : Bool :=
  match a.price, b.price with
  | some x, some y => decide (y ≤ x)
  | some _, none => true
  | none, some _ => false
  | none, none => true

/-- Insert into a price-descending list. -/
def insertPriceDesc (x : Product) : List Product → List Product
  | [] => [x]
  | y :: ys => if priceGe x y then x :: y :: ys else y :: insertPriceDesc x ys

/-- `sort_values(by="price", ascending=False)` as an insertion sort.
(pandas uses an unstable quicksort; no property proved here depends on
the order of price ties.) -/
def sortPriceDesc : List Product → List Product
  | [] => []
  | x :: xs => insertPriceDesc x (sortPriceDesc xs)

/-- The deduplication key of `dim_product_df`:
`subset=["product_id", "product_name", "category"]`. -/
def prodKey (p : Product) : String × Option String × Option String :=
  (p.product_id, p.product_name, p.category)

/-- `ETLOrchestrator.dim_product_df` (src/main.py lines 103-108): project
the joined rows to (product_id, product_name, category, price), sort by
price descending, and deduplicate on (product_id, product_name, category)
keeping the first row. -/
def dim_product_df (rawCat : List RawProduct) (txs : List Transaction) :
    List Product :=
  dropDupBy prodKey
    (sortPriceDesc ((transaction_product_joined_df rawCat txs).map selectProductCols))

/-- Minutes in one calendar day (`pd.date_range` default `freq='D'`). -/
def minutesPerDay : Nat := 1440

/-- The calendar date (`Timestamp.dt.date`) of a timestamp. -/
def dateOf (t : Nat) : Nat := t / minutesPerDay

/-- `series.min()` over the timestamp column (0 on an empty frame, where
pandas would give NaT; every claim about the time dimension assumes a
non-empty transaction set). -/
def minTs (txs : List Transaction) : Nat :=
  match txs.map fun t => t.timestamp with
  | [] => 0
  | t :: ts => ts.foldl Nat.min t

/-- `series.max()` over the timestamp column (0 on an empty frame). -/
def maxTs (txs : List Transaction) : Nat :=
  match txs.map fun t => t.timestamp with
  | [] => 0
  | t :: ts => ts.foldl Nat.max t

/-- `pd.date_range(start, end)` with the default daily frequency: the
timestamps `start + i` days for every `i` with `start + i*1440 ≤ end`.
The steps start from the raw `start` timestamp, time of day included. -/
def date_range (s e : Nat) : List Nat :=
  if s ≤ e then (List.range ((e - s) / minutesPerDay + 1)).map fun i => s + i * minutesPerDay
  else []

/-- `ETLOrchestrator.dim_time_df` (src/main.py lines 110-126): generate
the daily range from the minimum to the maximum transaction timestamp,
take each generated timestamp's calendar date, and drop duplicate dates
keeping the first.  (The year/month/day decomposition of each kept date
is omitted: it is a projection of `date` that no claim mentions.) -/
def dim_time_df (txs : List Transaction) : List Nat :=
  dropDupBy id ((date_range (minTs txs) (maxTs txs)).map dateOf)

/-- The `groupby` key of `fact_sale_df`:
`['date', 'transaction_id', 'customer_id', 'product_id']`. -/
structure SaleKey where
  date : Nat
  transaction_id : String
  customer_id : String
  product_id : String
deriving DecidableEq, Repr

/-- The group key of one raw transaction row (after
`df['date'] = df['timestamp'].dt.date`). -/
def saleKey (t : Transaction) : SaleKey :=
  { date := dateOf t.timestamp
    transaction_id := t.transaction_id
    customer_id := t.customer_id
    product_id := t.product_id }

/-- One row of the sale fact table. -/
structure FactRow where
  key : SaleKey
  price : Option ℚ
  quantity : Int
  total_sales : ℚ
deriving DecidableEq, Repr

/-- `df['total_sales'] = df['quantity'] * df['price']` on one raw row:
NaN price gives NaN total. -/
def rowTotal (t : Transaction) : Option ℚ :=
  t.price.map fun p => (t.quantity : ℚ) * p

/-- `ETLOrchestrator.fact_sale_df` (src/main.py lines 128-139): group the
raw transactions by (date, transaction_id, customer_id, product_id) and
aggregate: `'price': 'first'` is pandas GroupBy.first, the first
non-null price of the group; `'quantity': 'sum'`; `'total_sales': 'sum'`
skips NaN totals (rows with NaN price), an all-NaN group summing to 0.
(pandas emits the groups in sorted key order; here they appear in
first-seen order, which no claim distinguishes.) -/
def fact_sale_df (txs : List Transaction) : List FactRow :=
  (dropDupBy id (txs.map saleKey)).map fun k =>
    let g := txs.filter fun t => saleKey t = k
    { key := k
      price := (g.filterMap fun t => t.price).head?
      quantity := (g.map fun t => t.quantity).sum
      total_sales := (g.filterMap rowTotal).sum }

/-- The Python exceptions distinguished by the control flow of
src/main.py: `IOError` (= `OSError`, caught by the readers), `ValueError`
(unparseable JSON/CSV content; `pandas.errors.ParserError` subclasses
it), `TypeError` (subscripting the `None` returned by a failed reader),
and database/driver errors raised by `create_engine`/`connect`/`to_sql`. -/
inductive PyExc where
  | ioError
  | valueError
  | typeError
  | dbError
deriving DecidableEq, Repr

/-- What the world holds at a source location: a readable, parseable file
with content `v`; a missing or unreadable file; or a file whose content
does not parse. -/
inductive ReadOutcome (α : Type) where
  | ok (v : α)
  | ioFailure
  | unparseable
deriving DecidableEq, Repr

/-- `pd.read_json(filepath)` (with the subsequent `pd.to_datetime` folded
into the parsed rows): a missing/unreadable file raises `IOError`
(`FileNotFoundError` ⊆ `OSError`), malformed content raises
`ValueError`. -/
def read_json (o : ReadOutcome (List Transaction)) :
    Except PyExc (List Transaction) :=
  match o with
  | ReadOutcome.ok v => Except.ok v
  | ReadOutcome.ioFailure => Except.error PyExc.ioError
  | ReadOutcome.unparseable => Except.error PyExc.valueError

/-- `pd.read_csv(filepath)`: a missing/unreadable file raises `IOError`,
malformed content raises `pandas.errors.ParserError` (a `ValueError`). -/
def read_csv (o : ReadOutcome (List RawProduct)) :
    Except PyExc (List RawProduct) :=
  match o with
  | ReadOutcome.ok v => Except.ok v
  | ReadOutcome.ioFailure => Except.error PyExc.ioError
  | ReadOutcome.unparseable => Except.error PyExc.valueError

/-- `DataFactory.customer_transaction` (src/main.py lines 28-39):
`try: return pd.read_json(...) except IOError: print(...)` — an `IOError`
is caught and the function falls through returning `None`; any other
exception propagates. -/
def customer_transaction (o : ReadOutcome (List Transaction)) :
    Except PyExc (Option (List Transaction)) :=
  match read_json o with
  | Except.ok df => Except.ok (some df)
  | Except.error PyExc.ioError => Except.ok none
  | Except.error e => Except.error e

/-- `DataFactory.product_catalog` (src/main.py lines 41-50): same
`except IOError` shape over `pd.read_csv`. -/
def product_catalog (o : ReadOutcome (List RawProduct)) :
    Except PyExc (Option (List RawProduct)) :=
  match read_csv o with
  | Except.ok df => Except.ok (some df)
  | Except.error PyExc.ioError => Except.ok none
  | Except.error e => Except.error e

/-- External behavior of one run: what each source read yields and
whether the connection and each of the four table writes succeed. -/
structure World where
  txRead : ReadOutcome (List Transaction)
  catRead : ReadOutcome (List RawProduct)
  connect : Except PyExc Unit
  writeCustomer : Except PyExc Unit
  writeProduct : Except PyExc Unit
  writeTime : Except PyExc Unit
  writeSale : Except PyExc Unit

/-- Using the frame a reader returned: when the reader swallowed an
`IOError` and returned `None`, the first column access on it raises
`TypeError` (the product path an `AttributeError`; both are modelled by
the one `typeError` constructor, as only catchability matters here); a
propagating reader exception keeps propagating. -/
def materialize {α : Type} (r : Except PyExc (Option α)) : Except PyExc α :=
  match r with
  | Except.ok (some df) => Except.ok df
  | Except.ok none => Except.error PyExc.typeError
  | Except.error e => Except.error e

/-- The body of the `try` block of `ETLOrchestrator.load` (src/main.py
lines 142-150): connect, then for each of the four tables derive it (the
lazy properties re-read the sources here, inside the `try`) and write
it.  Any raised exception aborts the remainder. -/
def loadBody (w : World) : Except PyExc Unit := do
  let _ ← w.connect
  let txs ← materialize (customer_transaction w.txRead)
  let _customer := dim_customer_df txs
  let _ ← w.writeCustomer
  let cat ← materialize (product_catalog w.catRead)
  let _product := dim_product_df cat txs
  let _ ← w.writeProduct
  let _time := dim_time_df txs
  let _ ← w.writeTime
  let _sale := fact_sale_df txs
  let _ ← w.writeSale
  Except.ok ()

/-- How a call to `load` ended: the success log line, or the
`logger.error` line of its `except Exception` handler. -/
inductive LoadResult where
  | completed
  | loggedError (e : PyExc)
deriving DecidableEq, Repr

/-- `ETLOrchestrator.load` (src/main.py lines 141-152): run the body;
`except Exception as e: logger.error(...)` turns any exception into a
normal return carrying only a log line. -/
def load (w : World) : Except PyExc LoadResult :=
  match loadBody w with
  | Except.ok _ => Except.ok LoadResult.completed
  | Except.error e => Except.ok (LoadResult.loggedError e)

/-- How `main` ended on the success path. -/
inductive MainResult where
  | completed (r : LoadResult)
deriving DecidableEq, Repr

/-- `main` (src/main.py lines 155-163): call `load`; if it raises, log at
ERROR and re-raise (modelled by `Except.error`), else log completion. -/
def main (w : World) : Except PyExc MainResult :=
  match load w with
  | Except.ok r => Except.ok (MainResult.completed r)
  | Except.error e => Except.error e

/-- The (product_name, category) attributes a catalog determines for a
product id: those of the first catalog row carrying it, or NaN when the
id is not in the catalog.  Used to state that every joined row's
attributes are a function of its `product_id`. -/
def catAttr (cat : List Product) (pid : String) : Option String × Option String :=
  match cat.find? fun p => p.product_id = pid with
  | some p => (p.product_name, p.category)
  | none => (none, none)

/-!  Concrete example inputs used by the counterexample and witness
theorems below. -/

/-- A one-row raw catalog: P1 "Widget", price 10. -/
def exCatalogP1 : List RawProduct :=
  [{ product_id := "P1", product_name := some "Widget",
     category := some "Gadgets", price := CsvVal.num 10 }]

/-- One transaction for P1 priced 7 (disagreeing with the catalog's 10). -/
def exTxP1 : List Transaction :=
  [{ transaction_id := "T1", customer_id := "C1", product_id := "P1",
     timestamp := 0, quantity := 1, price := some 7 }]

/-- The row `transaction_product_joined_df exCatalogP1 exTxP1` produces:
catalog price 10 on `price_x`, transaction price 7 on `price_y`, and the
catalog's 10 as the effective `price`. -/
def exJoinedP1 : JoinedRow :=
  { product_id := "P1", product_name := some "Widget",
    category := some "Gadgets", price_x := some 10,
    transaction_id := some "T1", customer_id := some "C1",
    timestamp := some 0, quantity := some 1, price_y := some 7,
    price := some 10 }

/-- Two transactions at 23:00 of calendar day 0 (minute 1380) and 01:00
of calendar day 2 (minute 2940): three calendar dates, but the second
daily step from minute 1380 already passes minute 2940. -/
def exLateTxs : List Transaction :=
  [{ transaction_id := "T1", customer_id := "C1", product_id := "P1",
     timestamp := 1380, quantity := 1, price := some 5 },
   { transaction_id := "T2", customer_id := "C1", product_id := "P1",
     timestamp := 2940, quantity := 1, price := some 5 }]

/-- A split line-item: two raw rows in the same sale group, the first
with an absent price and quantity 1, the second priced 5, quantity 2. -/
def exSplitTxs : List Transaction :=
  [{ transaction_id := "T1", customer_id := "C1", product_id := "P1",
     timestamp := 0, quantity := 1, price := none },
   { transaction_id := "T1", customer_id := "C1", product_id := "P1",
     timestamp := 0, quantity := 2, price := some 5 }]

/-- The single fact row `fact_sale_df exSplitTxs` produces. -/
def exFactRow : FactRow :=
  { key := { date := 0, transaction_id := "T1", customer_id := "C1",
             product_id := "P1" },
    price := some 5, quantity := 3, total_sales := 10 }

/-- A one-row cleaned catalog holding only P1. -/
def exCatalogClean : List Product :=
  [{ product_id := "P1", product_name := some "Widget",
     category := some "Gadgets", price := some 10 }]

/-- One transaction for P9, a product absent from `exCatalogClean`. -/
def exTxP9 : List Transaction :=
  [{ transaction_id := "T9", customer_id := "C1", product_id := "P9",
     timestamp := 0, quantity := 1, price := some 3 }]

/-- The joined row for the catalog-less product P9: all catalog-side
fields absent, effective price falling back to the transaction's 3. -/
def exRowP9 : JoinedRow :=
  { product_id := "P9", product_name := none, category := none,
    price_x := none, transaction_id := some "T9", customer_id := some "C1",
    timestamp := some 0, quantity := some 1, price_y := some 3,
    price := some 3 }

/-- A world whose database connection attempt raises. -/
def exWorldConnFail : World :=
  { txRead := ReadOutcome.ok [], catRead := ReadOutcome.ok [],
    connect := Except.error PyExc.dbError,
    writeCustomer := Except.ok (), writeProduct := Except.ok (),
    writeTime := Except.ok (), writeSale := Except.ok () }

/-!  Helper lemmas about `dropDupByAux` / `dropDupBy`. -/

theorem mem_of_mem_dropDupByAux {α κ : Type} [DecidableEq κ] (key : α → κ)
    (l : List α) (seen : List κ) (x : α) (h : x ∈ dropDupByAux key seen l) :
    x ∈ l := by
  induction l generalizing seen with
  | nil => simp [dropDupByAux] at h
  | cons y ys ih =>
    by_cases hk : key y ∈ seen
    · simp only [dropDupByAux, if_pos hk] at h
      exact List.mem_cons_of_mem _ (ih seen h)
    · simp only [dropDupByAux, if_neg hk, List.mem_cons] at h
      rcases h with h | h
      · exact h ▸ List.mem_cons_self _ _
      · exact List.mem_cons_of_mem _ (ih _ h)

theorem key_not_mem_seen_of_mem_dropDupByAux {α κ : Type} [DecidableEq κ]
    (key : α → κ) (l : List α) (seen : List κ) (x : α)
    (h : x ∈ dropDupByAux key seen l) : key x ∉ seen := by
  induction l generalizing seen with
  | nil => simp [dropDupByAux] at h
  | cons y ys ih =>
    by_cases hk : key y ∈ seen
    · simp only [dropDupByAux, if_pos hk] at h
      exact ih seen h
    · simp only [dropDupByAux, if_neg hk, List.mem_cons] at h
      rcases h with h | h
      · exact h ▸ hk
      · intro hmem
        exact ih _ h (List.mem_cons_of_mem _ hmem)

theorem nodup_keys_dropDupByAux {α κ : Type} [DecidableEq κ] (key : α → κ)
    (l : List α) (seen : List κ) :
    ((dropDupByAux key seen l).map key).Nodup := by
  induction l generalizing seen with
  | nil => simp [dropDupByAux]
  | cons y ys ih =>
    by_cases hk : key y ∈ seen
    · simpa only [dropDupByAux, if_pos hk] using ih seen
    · simp only [dropDupByAux, if_neg hk, List.map_cons, List.nodup_cons]
      refine ⟨?_, ih _⟩
      intro hmem
      rcases List.mem_map.mp hmem with ⟨x, hx, hkx⟩
      exact key_not_mem_seen_of_mem_dropDupByAux key ys _ x hx
        (hkx ▸ List.mem_cons_self _ _)

/-- Keys of the deduplicated list are pairwise distinct. -/
theorem nodup_keys_dropDupBy {α κ : Type} [DecidableEq κ] (key : α → κ)
    (l : List α) : ((dropDupBy key l).map key).Nodup :=
  nodup_keys_dropDupByAux key l []

theorem mem_of_mem_dropDupBy {α κ : Type} [DecidableEq κ] (key : α → κ)
    (l : List α) (x : α) (h : x ∈ dropDupBy key l) : x ∈ l :=
  mem_of_mem_dropDupByAux key l [] x h

theorem filter_dropDupByAux_of_mem_seen {α κ : Type} [DecidableEq κ]
    (key : α → κ) (l : List α) (seen : List κ) (k : κ) (hk : k ∈ seen) :
    (dropDupByAux key seen l).filter (fun x => key x = k) = [] := by
  induction l generalizing seen with
  | nil => simp [dropDupByAux]
  | cons y ys ih =>
    by_cases hy : key y ∈ seen
    · simpa only [dropDupByAux, if_pos hy] using ih seen hk
    · have hyk : ¬ key y = k := fun h => hy (h ▸ hk)
      simp only [dropDupByAux, if_neg hy, List.filter_cons]
      simp only [hyk, decide_eq_true_eq, if_false, decide_False]
      exact ih (key y :: seen) (List.mem_cons_of_mem _ hk)

theorem filter_dropDupByAux_of_not_mem_seen {α κ : Type} [DecidableEq κ]
    (key : α → κ) (l : List α) (seen : List κ) (k : κ) (hk : k ∉ seen) :
    (dropDupByAux key seen l).filter (fun x => key x = k) =
      (l.filter fun x => key x = k).take 1 := by
  induction l generalizing seen with
  | nil => simp [dropDupByAux]
  | cons y ys ih =>
    by_cases hy : key y ∈ seen
    · have hyk : ¬ key y = k := fun h => hk (h ▸ hy)
      simp only [dropDupByAux, if_pos hy, List.filter_cons]
      simp only [hyk, decide_eq_true_eq, if_false, decide_False]
      exact ih seen hk
    · by_cases hyk : key y = k
      · subst hyk
        simp only [dropDupByAux, if_neg hy, List.filter_cons, decide_True,
          if_true]
        rw [filter_dropDupByAux_of_mem_seen key ys (key y :: seen) (key y)
          (List.mem_cons_self _ _)]
        simp
      · simp only [dropDupByAux, if_neg hy, List.filter_cons]
        simp only [hyk, decide_eq_true_eq, if_false, decide_False]
        refine ih (key y :: seen) ?_
        intro hmem
        rcases List.mem_cons.mp hmem with h | h
        · exact hyk h.symm
        · exact hk h

/-- Per key value, the deduplicated list keeps exactly the first matching
row of the input. -/
theorem filter_dropDupBy {α κ : Type} [DecidableEq κ] (key : α → κ)
    (l : List α) (k : κ) :
    (dropDupBy key l).filter (fun x => key x = k) =
      (l.filter fun x => key x = k).take 1 :=
  filter_dropDupByAux_of_not_mem_seen key l [] k (List.not_mem_nil k)

/-!  Helper lemmas about the price sort (membership only: every claim is
insensitive to the row order `sort_values` produces). -/

theorem mem_insertPriceDesc (x a : Product) (l : List Product) :
    a ∈ insertPriceDesc x l ↔ a = x ∨ a ∈ l := by
  induction l with
  | nil => simp [insertPriceDesc]
  | cons y ys ih =>
    by_cases h : priceGe x y
    · simp [insertPriceDesc, h, List.mem_cons]
    · simp only [insertPriceDesc, if_neg h, List.mem_cons, ih]
      tauto

theorem mem_sortPriceDesc (a : Product) (l : List Product) :
    a ∈ sortPriceDesc l ↔ a ∈ l := by
  induction l with
  | nil => simp [sortPriceDesc]
  | cons y ys ih =>
    simp only [sortPriceDesc, mem_insertPriceDesc, ih, List.mem_cons]

/-!  Helper lemmas about the outer merge. -/

/-- In a list with pairwise-distinct keys, `find?` on the key of a member
returns that member. -/
theorem find?_key_eq_of_nodup {α κ : Type} [DecidableEq κ] (key : α → κ)
    (l : List α) (hnd : (l.map key).Nodup) (x : α) (hx : x ∈ l) :
    l.find? (fun y => key y = key x) = some x := by
  induction l with
  | nil => simp at hx
  | cons y ys ih =>
    simp only [List.map_cons, List.nodup_cons] at hnd
    rcases List.mem_cons.mp hx with rfl | hx'
    · exact List.find?_cons_of_pos _ (by simp)
    · have hne : key y ≠ key x := by
        intro h
        exact hnd.1 (h ▸ List.mem_map_of_mem key hx')
      rw [List.find?_cons_of_neg _ (by simpa using hne)]
      exact ih hnd.2 hx'

/-- With a duplicate-free catalog, the (product_name, category) columns
of any outer-merge row are the function `catAttr` of its `product_id`. -/
theorem attr_of_mem_mergeOuter (cat : List Product) (txs : List Transaction)
    (hnd : (cat.map fun p => p.product_id).Nodup) (r : JoinedRow)
    (hr : r ∈ mergeOuter cat txs) :
    (r.product_name, r.category) = catAttr cat r.product_id := by
  rcases List.mem_append.mp hr with hl | hrr
  · rcases List.mem_flatMap.mp hl with ⟨p, hp, hrp⟩
    have hfind : cat.find? (fun q => q.product_id = p.product_id) = some p :=
      find?_key_eq_of_nodup (fun q => q.product_id) cat hnd p hp
    have hattr : ∀ s : JoinedRow, s.product_id = p.product_id →
        s.product_name = p.product_name → s.category = p.category →
        (s.product_name, s.category) = catAttr cat s.product_id := by
      intro s h1 h2 h3
      rw [h1, h2, h3, catAttr, hfind]
    by_cases hms : (txs.filter fun t => t.product_id = p.product_id).isEmpty
    · rw [if_pos hms] at hrp
      rcases List.mem_singleton.mp hrp with rfl
      exact hattr _ rfl rfl rfl
    · rw [if_neg hms] at hrp
      rcases List.mem_map.mp hrp with ⟨t, _, rfl⟩
      exact hattr _ rfl rfl rfl
  · rcases List.mem_map.mp hrr with ⟨t, ht, rfl⟩
    have hfilter := (List.mem_filter.mp ht).2
    have hnone : cat.find? (fun q => q.product_id = t.product_id) = none := by
      apply List.find?_eq_none.mpr
      intro p hp
      have := (List.all_eq_true.mp hfilter) p hp
      simpa using this
    show ((none : Option String), (none : Option String)) = _
    rw [mkRightOnly, catAttr]
    simp only [hnone]

/-- Every transaction's `product_id` appears in the merged result. -/
theorem mergeOuter_covers_tx (cat : List Product) (txs : List Transaction)
    (t : Transaction) (ht : t ∈ txs) :
    ∃ r ∈ mergeOuter cat txs, r.product_id = t.product_id := by
  by_cases hc : ∃ p ∈ cat, p.product_id = t.product_id
  · rcases hc with ⟨p, hp, hpt⟩
    have hms : t ∈ txs.filter fun u => u.product_id = p.product_id :=
      List.mem_filter.mpr ⟨ht, by simp [hpt]⟩
    refine ⟨mkBoth p t, List.mem_append_left _ ?_, by simp [mkBoth, hpt]⟩
    apply List.mem_flatMap.mpr
    refine ⟨p, hp, ?_⟩
    rw [if_neg (by simpa [List.isEmpty_iff] using List.ne_nil_of_mem hms)]
    exact List.mem_map_of_mem _ hms
  · push_neg at hc
    refine ⟨mkRightOnly t, List.mem_append_right _ ?_, rfl⟩
    apply List.mem_map_of_mem
    refine List.mem_filter.mpr ⟨ht, ?_⟩
    simp only [List.all_eq_true, decide_eq_true_eq]
    intro p hp
    simpa using hc p hp

/-- Every catalog row's `product_id` appears in the merged result. -/
theorem mergeOuter_covers_cat (cat : List Product) (txs : List Transaction)
    (p : Product) (hp : p ∈ cat) :
    ∃ r ∈ mergeOuter cat txs, r.product_id = p.product_id := by
  by_cases hms : (txs.filter fun u => u.product_id = p.product_id).isEmpty
  · refine ⟨mkLeftOnly p, List.mem_append_left _ ?_, rfl⟩
    apply List.mem_flatMap.mpr
    exact ⟨p, hp, by rw [if_pos hms]; exact List.mem_singleton_self _⟩
  · have hex : ∃ t ∈ txs, t.product_id = p.product_id := by
      simpa [List.isEmpty_iff] using hms
    rcases hex with ⟨t, htx, htp⟩
    have htm : t ∈ txs.filter fun u => u.product_id = p.product_id :=
      List.mem_filter.mpr ⟨htx, by simp [htp]⟩
    refine ⟨mkBoth p t, List.mem_append_left _ ?_, rfl⟩
    apply List.mem_flatMap.mpr
    refine ⟨p, hp, ?_⟩
    rw [if_neg hms]
    exact List.mem_map_of_mem _ htm

/-- Case analysis on where a merged row came from: both sides matched, a
catalog row alone, or a transaction alone. -/
theorem mem_mergeOuter_cases (cat : List Product) (txs : List Transaction)
    (r : JoinedRow) (hr : r ∈ mergeOuter cat txs) :
    (∃ p ∈ cat, ∃ t ∈ txs, t.product_id = p.product_id ∧ r = mkBoth p t) ∨
    (∃ p ∈ cat, r = mkLeftOnly p) ∨ (∃ t ∈ txs, r = mkRightOnly t) := by
  rcases List.mem_append.mp hr with hl | hrr
  · rcases List.mem_flatMap.mp hl with ⟨p, hp, hrp⟩
    by_cases hms : (txs.filter fun t => t.product_id = p.product_id).isEmpty
    · rw [if_pos hms] at hrp
      exact Or.inr (Or.inl ⟨p, hp, List.mem_singleton.mp hrp⟩)
    · rw [if_neg hms] at hrp
      rcases List.mem_map.mp hrp with ⟨t, htm, rfl⟩
      have hf := List.mem_filter.mp htm
      exact Or.inl ⟨p, hp, t, hf.1, by simpa using hf.2, rfl⟩
  · rcases List.mem_map.mp hrr with ⟨t, ht, rfl⟩
    exact Or.inr (Or.inr ⟨t, (List.mem_filter.mp ht).1, rfl⟩)

/-- `attr_of_mem_mergeOuter`, lifted through the added `price` column. -/
theorem attr_of_mem_mergeJoin (cat : List Product) (txs : List Transaction)
    (hnd : (cat.map fun p => p.product_id).Nodup) (r : JoinedRow)
    (hr : r ∈ mergeJoin cat txs) :
    (r.product_name, r.category) = catAttr cat r.product_id := by
  rcases List.mem_map.mp hr with ⟨s, hs, rfl⟩
  exact attr_of_mem_mergeOuter cat txs hnd s hs

theorem mergeJoin_covers_tx (cat : List Product) (txs : List Transaction)
    (t : Transaction) (ht : t ∈ txs) :
    ∃ r ∈ mergeJoin cat txs, r.product_id = t.product_id := by
  rcases mergeOuter_covers_tx cat txs t ht with ⟨r, hr, hpid⟩
  exact ⟨withEffectivePrice r, List.mem_map_of_mem _ hr, hpid⟩

theorem mergeJoin_covers_cat (cat : List Product) (txs : List Transaction)
    (p : Product) (hp : p ∈ cat) :
    ∃ r ∈ mergeJoin cat txs, r.product_id = p.product_id := by
  rcases mergeOuter_covers_cat cat txs p hp with ⟨r, hr, hpid⟩
  exact ⟨withEffectivePrice r, List.mem_map_of_mem _ hr, hpid⟩

/-- The cleaned catalog has pairwise-distinct product ids. -/
theorem nodup_product_catalog_keys (raw : List RawProduct) :
    ((product_catalog_df raw).map fun p => p.product_id).Nodup := by
  unfold product_catalog_df
  rw [List.map_map]
  exact nodup_keys_dropDupBy (fun r => r.product_id) raw

/-- A key present in the input is still present after deduplication. -/
theorem key_mem_dropDupBy {α κ : Type} [DecidableEq κ] (key : α → κ)
    (l : List α) (k : κ) (h : k ∈ l.map key) :
    ∃ x ∈ dropDupBy key l, key x = k := by
  rcases List.mem_map.mp h with ⟨x0, hx0, rfl⟩
  have hne : (l.filter fun x => key x = key x0) ≠ [] :=
    List.ne_nil_of_mem (List.mem_filter.mpr ⟨hx0, by simp⟩)
  have htake : ((l.filter fun x => key x = key x0).take 1) ≠ [] := by
    cases hl : l.filter fun x => key x = key x0 with
    | nil => exact absurd hl hne
    | cons a as => simp
  rw [← filter_dropDupBy key l (key x0)] at htake
  rcases List.exists_mem_of_ne_nil _ htake with ⟨z, hz⟩
  have hz' := List.mem_filter.mp hz
  exact ⟨z, hz'.1, by simpa using hz'.2⟩

/-- Distinct values of a list that injects (elementwise) into another
list are no more numerous than that list's rows. -/
theorem dedup_length_le_of_subset {α : Type} [DecidableEq α] (l m : List α)
    (h : ∀ x ∈ l, x ∈ m) : l.dedup.length ≤ m.length := by
  calc l.dedup.length = l.toFinset.card := (List.card_toFinset l).symm
    _ ≤ m.toFinset.card :=
        Finset.card_le_card fun x hx =>
          List.mem_toFinset.mpr (h x (List.mem_toFinset.mp hx))
    _ ≤ m.length := List.toFinset_card_le m

/-- The group keys of the sale fact table are the deduplicated keys of
the raw transactions. -/
theorem fact_sale_keys (txs : List Transaction) :
    (fact_sale_df txs).map (fun f => f.key) = dropDupBy id (txs.map saleKey) := by
  unfold fact_sale_df
  rw [List.map_map]
  exact List.map_id' _

/-!  Claim theorems. -/

/-- C1 counterexample: a catalog row and a transaction for the same
product carry different present prices (catalog 10, transaction 7); the
reconciled row keeps the catalog price 10, not the transaction price 7.
Here `price_x` is the catalog-side price and `price_y` the
transaction-side price, because the cleaned catalog is the left operand
of the merge (pandas suffixes the left frame with `_x`). -/
theorem joined_price_prefers_catalog :
    (transaction_product_joined_df exCatalogP1 exTxP1).map
        (fun r => (r.price_x, r.price_y, r.price)) =
      [(some 10, some 7, some 10)] ∧ (some (10 : ℚ) : Option ℚ) ≠ some 7 := by
  decide

/-- C1 (amended): in every reconciled row the effective price equals the
catalog-side price when that is present; the transaction-side price is
used only when the catalog-side price is absent. -/
theorem joined_effective_price (rawCat : List RawProduct)
    (txs : List Transaction) (r : JoinedRow)
    (hr : r ∈ transaction_product_joined_df rawCat txs) :
    (∀ q : ℚ, r.price_x = some q → r.price = some q) ∧
    (r.price_x = none → r.price = r.price_y) := by
  rcases List.mem_map.mp hr with ⟨s, _, rfl⟩
  constructor
  · intro q hq
    have h1 : s.price_x = some q := hq
    show combineFirst s.price_x s.price_y = some q
    rw [h1]
    rfl
  · intro hq
    have h1 : s.price_x = none := hq
    show combineFirst s.price_x s.price_y = s.price_y
    rw [h1]
    rfl

/-- C1 witness: the amended rule applied to the row joining catalog
price 10 with transaction price 7. -/
theorem joined_effective_price_witness : exJoinedP1.price = some 10 :=
  (joined_effective_price exCatalogP1 exTxP1 exJoinedP1 (by decide)).1 10 rfl

/-- C3 counterexample: on unparseable content `pd.read_json` /
`pd.read_csv` raise `ValueError` (pandas `ParserError` subclasses it),
which the readers' `except IOError` handler does not catch, so an
exception propagates to the caller instead of the claimed no-exception
missing-result return. -/
theorem reader_parse_error_propagates :
    customer_transaction ReadOutcome.unparseable = Except.error PyExc.valueError ∧
    product_catalog ReadOutcome.unparseable = Except.error PyExc.valueError :=
  ⟨rfl, rfl⟩

/-- C3 (amended): only OS-level read failures (`IOError`: missing or
unreadable file) are caught and reported, the reader returning no usable
result and raising nothing; unparseable content instead raises an
uncaught `ValueError` that propagates to the caller. -/
theorem reader_io_error_swallowed :
    customer_transaction ReadOutcome.ioFailure = Except.ok none ∧
    product_catalog ReadOutcome.ioFailure = Except.ok none ∧
    customer_transaction ReadOutcome.unparseable = Except.error PyExc.valueError ∧
    product_catalog ReadOutcome.unparseable = Except.error PyExc.valueError :=
  ⟨rfl, rfl, rfl, rfl⟩

/-- C6: the cleaned catalog has exactly one row per distinct product_id,
namely the sanitized first occurrence in input order (deduplication runs
before price sanitization), and on the catalog [P1 "Widget" 9.99,
P1 "Widget Dup" -5] the output is the single P1 row with price 9.99. -/
theorem product_catalog_first_occurrence (raw : List RawProduct) :
    ((product_catalog_df raw).map fun p => p.product_id).Nodup ∧
    (∀ k : String,
      (product_catalog_df raw).filter (fun p => p.product_id = k) =
        ((raw.filter fun r => r.product_id = k).take 1).map cleanRow) ∧
    product_catalog_df
        [{ product_id := "P1", product_name := some "Widget",
           category := some "Gadgets", price := CsvVal.num (9.99 : ℚ) },
         { product_id := "P1", product_name := some "Widget Dup",
           category := some "Gadgets", price := CsvVal.num (-5 : ℚ) }] =
      [{ product_id := "P1", product_name := some "Widget",
         category := some "Gadgets", price := some (9.99 : ℚ) }] := by
  refine ⟨nodup_product_catalog_keys raw, ?_,
    by norm_num [product_catalog_df, dropDupBy, dropDupByAux, cleanRow,
      toNumeric, sanitizePrice]⟩
  intro k
  have h1 : (product_catalog_df raw).filter (fun p => p.product_id = k) =
      ((dropDupBy (fun r => r.product_id) raw).filter fun r => r.product_id = k).map
        cleanRow := by
    rw [product_catalog_df, List.filter_map]
    rfl
  rw [h1, filter_dropDupBy]

/-- C7: in the cleaned catalog every present price is non-negative and
every product_name is present; moreover each cleaned row comes from a
raw row of the input for which the transformation is exactly: a price
failing numeric coercion becomes absent, a negative coerced price
becomes absent (never clamped to zero), a non-negative coerced price is
kept unchanged, a missing product_name is replaced by the sentinel
"Unknown Product", and a present product_name is kept unchanged. -/
theorem product_catalog_sanitized (raw : List RawProduct) (p : Product)
    (hp : p ∈ product_catalog_df raw) :
    (∀ q : ℚ, p.price = some q → 0 ≤ q) ∧ p.product_name.isSome = true ∧
    ∃ r ∈ raw, p.product_id = r.product_id ∧
      (toNumeric r.price = none → p.price = none) ∧
      (∀ q : ℚ, toNumeric r.price = some q → 0 ≤ q → p.price = some q) ∧
      (∀ q : ℚ, toNumeric r.price = some q → q < 0 → p.price = none) ∧
      (r.product_name = none → p.product_name = some "Unknown Product") ∧
      (∀ n : String, r.product_name = some n → p.product_name = some n) := by
  rcases List.mem_map.mp hp with ⟨r, hr, rfl⟩
  have hraw : r ∈ raw := mem_of_mem_dropDupBy (fun x => x.product_id) raw r hr
  refine ⟨?_, rfl, r, hraw, rfl, ?_, ?_, ?_, ?_, ?_⟩
  · intro q hq
    have hq' : sanitizePrice (toNumeric r.price) = some q := hq
    cases h : toNumeric r.price with
    | none =>
      rw [h] at hq'
      exact absurd hq' (by simp [sanitizePrice])
    | some x =>
      rw [h] at hq'
      by_cases hx : 0 ≤ x
      · have h2 : some x = some q := by simpa [sanitizePrice, hx] using hq'
        exact Option.some.inj h2 ▸ hx
      · exact absurd hq' (by simp [sanitizePrice, hx])
  · intro h
    show sanitizePrice (toNumeric r.price) = none
    rw [h]
    rfl
  · intro q hq hq0
    show sanitizePrice (toNumeric r.price) = some q
    rw [hq]
    simp [sanitizePrice, hq0]
  · intro q hq hqneg
    show sanitizePrice (toNumeric r.price) = none
    rw [hq]
    simp [sanitizePrice, not_le.mpr hqneg]
  · intro h
    show some (r.product_name.getD "Unknown Product") = some "Unknown Product"
    rw [h]
    rfl
  · intro n h
    show some (r.product_name.getD "Unknown Product") = some n
    rw [h]
    rfl

/-- C7 witness: a raw row with a missing name and price -5 comes out
with the "Unknown Product" sentinel and an absent — not zero — price. -/
theorem product_catalog_sanitized_witness :
    ({ product_id := "P2", product_name := some "Unknown Product",
       category := none, price := none } : Product).product_name =
      some "Unknown Product" ∧
    ({ product_id := "P2", product_name := some "Unknown Product",
       category := none, price := none } : Product).price = none := by
  have h := product_catalog_sanitized
    [{ product_id := "P2", product_name := none, category := none,
       price := CsvVal.num (-5) }]
    { product_id := "P2", product_name := some "Unknown Product",
      category := none, price := none } (by decide)
  rcases h.2.2 with ⟨r, hrmem, _, _, _, hneg, hsent, _⟩
  have hreq : r =
      { product_id := "P2", product_name := none, category := none,
        price := CsvVal.num (-5) } :=
    List.mem_singleton.mp hrmem
  subst hreq
  exact ⟨hsent rfl, hneg (-5) rfl (by norm_num)⟩

/-- C2 evaluated at a failing input: transactions at 23:00 of day 0
(minute 1380) and 01:00 of day 2 (minute 2940) span three calendar dates
(days 0, 1, 2), so the claim demands 3 rows; but `pd.date_range` steps
whole days from the raw 23:00 minimum timestamp (1380, 2820), never
reaching a timestamp on day 2, so the time dimension has only 2 rows and
the maximum transaction date is missing.  The row count is therefore not
independent of the time-of-day components, contradicting both the claim
and the source's stated intent of covering every date up to the maximum. -/
theorem dim_time_misses_final_date :
    (dim_time_df exLateTxs).length = 2 ∧
    dateOf (maxTs exLateTxs) - dateOf (minTs exLateTxs) + 1 = 3 ∧
    dateOf (maxTs exLateTxs) ∉ dim_time_df exLateTxs := by
  decide

/-- C5 counterexample: two raw rows in the same sale group, the first
with an absent price and quantity 1, the second priced 5 with quantity
2.  pandas `agg({'price': 'first'})` is GroupBy.first, the first
non-null value, so the fact row's price is 5 — not the absent price of
the group's first raw row, as the claim states. -/
theorem fact_sale_price_not_first_row :
    fact_sale_df exSplitTxs = [exFactRow] ∧ exFactRow.price = some 5 ∧
    (exSplitTxs.map fun t => t.price).head? = some none := by
  refine ⟨?_, rfl, rfl⟩
  simp [fact_sale_df, exSplitTxs, exFactRow, dropDupBy, dropDupByAux, saleKey,
    dateOf, minutesPerDay, rowTotal, List.filterMap_cons]
  norm_num

/-- C5 (amended): the sale fact table has exactly one row per distinct
(date, transaction_id, customer_id, product_id) group of the raw
transactions; per group, quantity is the sum of raw quantities,
total_sales is the sum of quantity × price over the group's rows that
carry a present price, and price is the group's first present price
(absent when every price in the group is absent). -/
theorem fact_sale_grouping (txs : List Transaction) :
    ((fact_sale_df txs).map fun f => f.key).Nodup ∧
    (∀ k : SaleKey,
      (k ∈ (fact_sale_df txs).map fun f => f.key) ↔ k ∈ txs.map saleKey) ∧
    (∀ f ∈ fact_sale_df txs,
      f.quantity = ((txs.filter fun t => saleKey t = f.key).map fun t => t.quantity).sum ∧
      f.total_sales = ((txs.filter fun t => saleKey t = f.key).filterMap rowTotal).sum ∧
      f.price = ((txs.filter fun t => saleKey t = f.key).filterMap fun t => t.price).head?) := by
  refine ⟨?_, ?_, ?_⟩
  · rw [fact_sale_keys]
    have h := nodup_keys_dropDupBy (id : SaleKey → SaleKey) (txs.map saleKey)
    simpa using h
  · intro k
    rw [fact_sale_keys]
    constructor
    · intro hk
      exact mem_of_mem_dropDupBy id _ k hk
    · intro hk
      rcases key_mem_dropDupBy id (txs.map saleKey) k
          (by rw [List.map_id]; exact hk) with ⟨x, hx, hxk⟩
      subst hxk
      exact hx
  · intro f hf
    rcases List.mem_map.mp hf with ⟨k, _, rfl⟩
    exact ⟨rfl, rfl, rfl⟩

/-- C5 witness: the amended aggregation rules evaluated on the
counterexample group (quantity 3, total_sales 10, price 5). -/
theorem fact_sale_grouping_witness :
    exFactRow.quantity =
      ((exSplitTxs.filter fun t => saleKey t = exFactRow.key).map
        fun t => t.quantity).sum ∧
    exFactRow.price =
      ((exSplitTxs.filter fun t => saleKey t = exFactRow.key).filterMap
        fun t => t.price).head? := by
  have hmem : exFactRow ∈ fact_sale_df exSplitTxs := by
    have heq : fact_sale_df exSplitTxs = [exFactRow] := by
      simp [fact_sale_df, exSplitTxs, exFactRow, dropDupBy, dropDupByAux,
        saleKey, dateOf, minutesPerDay, rowTotal, List.filterMap_cons]
      norm_num
    rw [heq]
    exact List.mem_singleton_self _
  have h := (fact_sale_grouping exSplitTxs).2.2 exFactRow hmem
  exact ⟨h.1, h.2.2⟩

/-- C4: the product dimension has at most one row per product_id: with
the catalog deduplicated on product_id before the join, every joined
row's (product_name, category) is a function of its product_id, so
deduplicating on (product_id, product_name, category) after the price
sort leaves pairwise-distinct product_ids. -/
theorem dim_product_unique_product_id (rawCat : List RawProduct)
    (txs : List Transaction) :
    ((dim_product_df rawCat txs).map fun p => p.product_id).Nodup := by
  have hnd : ((product_catalog_df rawCat).map fun p => p.product_id).Nodup :=
    nodup_product_catalog_keys rawCat
  have hattr : ∀ p ∈ dim_product_df rawCat txs,
      (p.product_name, p.category) = catAttr (product_catalog_df rawCat) p.product_id := by
    intro p hp
    have hp1 := mem_of_mem_dropDupBy prodKey _ p hp
    have hp2 := (mem_sortPriceDesc p _).mp hp1
    rcases List.mem_map.mp hp2 with ⟨r, hr, rfl⟩
    exact attr_of_mem_mergeJoin (product_catalog_df rawCat) txs hnd r hr
  have hkeys : ((dim_product_df rawCat txs).map prodKey).Nodup :=
    nodup_keys_dropDupBy prodKey _
  have hpw : (dim_product_df rawCat txs).Pairwise fun a b => prodKey a ≠ prodKey b :=
    List.pairwise_map.mp hkeys
  have hpw2 : (dim_product_df rawCat txs).Pairwise
      fun a b => a.product_id ≠ b.product_id := by
    refine hpw.imp_of_mem ?_
    intro a b ha hb hne heq
    apply hne
    have h1 := hattr a ha
    have h2 := hattr b hb
    rw [heq] at h1
    have h3 : (a.product_name, a.category) = (b.product_name, b.category) :=
      h1.trans h2.symm
    have hn : a.product_name = b.product_name := congrArg Prod.fst h3
    have hc : a.category = b.category := congrArg Prod.snd h3
    simp [prodKey, heq, hn, hc]
  exact List.pairwise_map.mpr hpw2

/-- C8: the reconciler is a full outer join on product_id: every
product_id from either source appears in the result, the fields of an
unmatched side are left absent, and the row count is at least the larger
of the two sources' distinct-product_id counts. -/
theorem reconciler_full_outer_join (cat : List Product) (txs : List Transaction) :
    (∀ t ∈ txs, ∃ r ∈ mergeJoin cat txs, r.product_id = t.product_id) ∧
    (∀ p ∈ cat, ∃ r ∈ mergeJoin cat txs, r.product_id = p.product_id) ∧
    (∀ r ∈ mergeJoin cat txs,
      ((∀ p ∈ cat, p.product_id ≠ r.product_id) →
        r.product_name = none ∧ r.category = none ∧ r.price_x = none) ∧
      ((∀ t ∈ txs, t.product_id ≠ r.product_id) →
        r.transaction_id = none ∧ r.customer_id = none ∧ r.timestamp = none ∧
          r.quantity = none ∧ r.price_y = none)) ∧
    max ((txs.map fun t => t.product_id).dedup.length)
        ((cat.map fun p => p.product_id).dedup.length) ≤
      (mergeJoin cat txs).length := by
  refine ⟨fun t ht => mergeJoin_covers_tx cat txs t ht,
          fun p hp => mergeJoin_covers_cat cat txs p hp, ?_, ?_⟩
  · intro r hr
    rcases List.mem_map.mp hr with ⟨s, hs, rfl⟩
    rcases mem_mergeOuter_cases cat txs s hs with
        ⟨p, hp, t, ht, hpt, rfl⟩ | ⟨p, hp, rfl⟩ | ⟨t, ht, rfl⟩
    · exact ⟨fun hno => absurd rfl (hno p hp), fun hno => absurd hpt (hno t ht)⟩
    · exact ⟨fun hno => absurd rfl (hno p hp), fun _ => ⟨rfl, rfl, rfl, rfl, rfl⟩⟩
    · exact ⟨fun _ => ⟨rfl, rfl, rfl⟩, fun hno => absurd rfl (hno t ht)⟩
  · apply Nat.max_le.mpr
    constructor
    · have h1 : ∀ x ∈ txs.map fun t => t.product_id,
          x ∈ (mergeJoin cat txs).map fun r => r.product_id := by
        intro x hx
        rcases List.mem_map.mp hx with ⟨t, ht, rfl⟩
        rcases mergeJoin_covers_tx cat txs t ht with ⟨r, hr, hpid⟩
        exact List.mem_map.mpr ⟨r, hr, hpid⟩
      have h2 := dedup_length_le_of_subset _ _ h1
      simpa using h2
    · have h1 : ∀ x ∈ cat.map fun p => p.product_id,
          x ∈ (mergeJoin cat txs).map fun r => r.product_id := by
        intro x hx
        rcases List.mem_map.mp hx with ⟨p, hp, rfl⟩
        rcases mergeJoin_covers_cat cat txs p hp with ⟨r, hr, hpid⟩
        exact List.mem_map.mpr ⟨r, hr, hpid⟩
      have h2 := dedup_length_le_of_subset _ _ h1
      simpa using h2

/-- C8 witness: a transaction for a product absent from the catalog
yields a joined row whose catalog-side fields are all absent. -/
theorem reconciler_full_outer_join_witness :
    exRowP9.product_name = none ∧ exRowP9.category = none ∧
    exRowP9.price_x = none := by
  have h := reconciler_full_outer_join exCatalogClean exTxP9
  exact (h.2.2.1 exRowP9 (by decide)).1 (by decide)

/-- C9: `load` never lets an exception escape: for every behavior of the
sources and the database it returns normally, and whenever its body
raises, the result is exactly the ERROR-logged return of the blanket
`except` handler. -/
theorem load_swallows_failures (w : World) :
    (∃ r : LoadResult, load w = Except.ok r) ∧
    (∀ e : PyExc, loadBody w = Except.error e →
      load w = Except.ok (LoadResult.loggedError e)) := by
  constructor
  · cases h : loadBody w with
    | ok u => exact ⟨LoadResult.completed, by simp [load, h]⟩
    | error e => exact ⟨LoadResult.loggedError e, by simp [load, h]⟩
  · intro e he
    simp [load, he]

/-- C9 witness: a world whose connection attempt raises gets the error
logged and swallowed. -/
theorem load_swallows_failures_witness :
    load exWorldConnFail = Except.ok (LoadResult.loggedError PyExc.dbError) :=
  (load_swallows_failures exWorldConnFail).2 PyExc.dbError rfl

/-- C10: for every behavior of the sources and the database, `main`
returns successfully with the completion log.  Since all table
derivation happens inside `load`, whose blanket handler catches every
exception (including the TypeError following a swallowed read failure),
`load` never raises, so the except-and-re-raise branch of `main` — the
only way `main` can produce `Except.error` — is unreachable. -/
theorem main_always_succeeds (w : World) :
    ∃ r : LoadResult, main w = Except.ok (MainResult.completed r) := by
  cases h : loadBody w with
  | ok u => exact ⟨LoadResult.completed, by simp [main, load, h]⟩
  | error e => exact ⟨LoadResult.loggedError e, by simp [main, load, h]⟩

end SmartShopETL
